import Mathlib

/-!
Shallow embedding of the ingredient-extraction and verdict-parsing pipeline
of the EU food-export compliance checker (a TypeScript/Next.js repository),
together with theorems settling the frozen claims about it.

Text is modelled at the level of `List Char`: JavaScript strings are
sequences of code units and every input of interest here is plain text, so
characters suffice.  The JavaScript regular expressions appearing in the
source are translated into explicit scanning functions; each translation is
annotated with the regex it realises and with the backtracking analysis
justifying the translation.  Network effects are modelled by threading a
simulated sequence of transport outcomes through the retry loops, so that
every function is executable and the claims about retry counts and backoff
delays become statements about the resulting traces.
-/

namespace TeamB

/-! ## Character classes

JavaScript `\s` (used by `trim()` and by the `\s*` regex fragments) covers
the WhiteSpace and LineTerminator productions of ECMAScript. -/

/-- Whitespace in the sense of the ECMAScript `\s` class and `String.trim`:
space, tab, LF, VT, FF, CR, NBSP, Ogham space, the U+2000 to U+200A range,
LS, PS, NNBSP, MMSP, ideographic space and the BOM. -/
def isJsWS (c : Char) : Bool :=
  c == ' ' || c == '\t' || c == '\n' || c == '\u000B' || c == '\u000C' ||
  c == '\r' || c == '\u00A0' || c == '\u1680' ||
  (0x2000 ≤ c.toNat && c.toNat ≤ 0x200A) ||
  c == '\u2028' || c == '\u2029' || c == '\u202F' || c == '\u205F' ||
  c == '\u3000' || c == '\uFEFF'

/-- Line terminators of ECMAScript: LF, CR, LS, PS.  The `.` regex class
matches every character except these, and with the `m` flag `^` matches
right after any of them. -/
def isLineTerm (c : Char) : Bool :=
  c == '\n' || c == '\r' || c == '\u2028' || c == '\u2029'

/-! ## JavaScript `String.prototype.trim` -/

/-- Remove trailing whitespace, keeping everything up to the last
non-whitespace character. -/
def dropTrailWS : List Char → List Char
  | [] => []
  | c :: cs =>
    match dropTrailWS cs with
    | [] => if isJsWS c then [] else [c]
    | r => c :: r

/-- Remove leading and trailing whitespace from a character list, the way
JavaScript `trim()` does. -/
def trimChars (l : List Char) : List Char :=
  dropTrailWS (l.dropWhile isJsWS)

/-- JavaScript `String.prototype.trim` on Lean strings. -/
def jsTrim (s : String) : String :=
  ⟨trimChars s.data⟩

theorem dropTrailWS_idem (l : List Char) :
    dropTrailWS (dropTrailWS l) = dropTrailWS l := by
  induction l with
  | nil => rfl
  | cons c cs ih =>
    cases h : dropTrailWS cs with
    | nil =>
      have hcons : dropTrailWS (c :: cs) = if isJsWS c then [] else [c] := by
        simp only [dropTrailWS, h]
      rw [hcons]
      by_cases hc : isJsWS c
      · simp [hc, dropTrailWS]
      · simp [hc, dropTrailWS]
    | cons d ds =>
      have hcons : dropTrailWS (c :: cs) = c :: d :: ds := by
        simp only [dropTrailWS, h]
      rw [h] at ih
      rw [hcons]
      have hstep : dropTrailWS (c :: d :: ds) =
          match dropTrailWS (d :: ds) with
          | [] => if isJsWS c then [] else [c]
          | r => c :: r := rfl
      rw [hstep, ih]

theorem dropTrailWS_cons_shape (c : Char) (cs : List Char) :
    dropTrailWS (c :: cs) = [] ∨ ∃ r, dropTrailWS (c :: cs) = c :: r := by
  simp only [dropTrailWS]
  cases h : dropTrailWS cs with
  | nil =>
    by_cases hc : isJsWS c
    · exact Or.inl (by simp [hc])
    · exact Or.inr ⟨[], by simp [hc]⟩
  | cons d ds => exact Or.inr ⟨d :: ds, rfl⟩

theorem dropWhile_head_false {l : List Char} {c : Char} {cs : List Char}
    (h : l.dropWhile isJsWS = c :: cs) : isJsWS c = false := by
  induction l with
  | nil => simp at h
  | cons a as ih =>
    by_cases ha : isJsWS a
    · rw [List.dropWhile_cons, if_pos ha] at h
      exact ih h
    · rw [List.dropWhile_cons, if_neg ha] at h
      cases h
      exact eq_false_of_ne_true ha

theorem trimChars_idem (l : List Char) :
    trimChars (trimChars l) = trimChars l := by
  unfold trimChars
  cases hA : l.dropWhile isJsWS with
  | nil => rfl
  | cons c cs =>
    have hc : isJsWS c = false := dropWhile_head_false hA
    rcases dropTrailWS_cons_shape c cs with h0 | ⟨r, hr⟩
    · rw [h0]; rfl
    · rw [hr, List.dropWhile_cons, hc]
      simp only [Bool.false_eq_true, if_false]
      have h2 := dropTrailWS_idem (c :: cs)
      rw [hr] at h2
      exact h2

theorem jsTrim_idem (s : String) : jsTrim (jsTrim s) = jsTrim s := by
  unfold jsTrim
  exact congrArg String.mk (trimChars_idem s.data)

/-! ## Data model (src/lib/types.ts) -/

/-- Result of a compliance analysis, from `src/lib/types.ts`: the verdict
line, the two language blocks, and the unparsed reply kept as an escape
hatch. -/
structure AnalysisResult where
  verdict : String
  englishReason : String
  japaneseReason : String
  rawResponse : String
deriving DecidableEq

/-- Product information extracted from a product page
(`src/lib/types.ts`). -/
structure ProductData where
  productName : String
  ingredients : String
  sourceUrl : String
deriving DecidableEq

/-- The Gemini API response, reduced to the one field the code reads:
`response.candidates[0]?.content.parts[0]?.text`.  `none` models a missing
candidate, content part or text field (the optional chains yielding
`undefined`). -/
structure GeminiResponse where
  text : Option String
deriving DecidableEq

/-- Failure modes of `parseGeminiResponse`: the "No text content in Gemini
API response" throw, and the FormatError throw "AI response was not in the
expected format. Raw response: ..." that carries the raw reply. -/
inductive ParseFailure where
  | noText
  | formatError (raw : String)
deriving DecidableEq

/-! ## Verdict Parser (src/lib/geminiApi.ts, parseGeminiResponse)

The source matches three regular expressions against the reply text:

1. `/^VERDICT:\s*(.*)$/m`
2. `/=== ENGLISH ===\s*([\s\S]*?)(?=\s*=== JAPANESE|$)/`
3. `/=== JAPANESE.*?===\s*([\s\S]*?)$/`

They are realised below by explicit scans, with their backtracking
behaviour worked out in the comments of each function. -/

/-- Scan for the leftmost occurrence of `marker` anchored at a line start
(the `/^marker/m` search), returning the text after the marker.  `atStart`
says whether the current position is a line start; with the `m` flag `^`
matches at the start of input and after every line terminator. -/
def scanLS (marker : List Char) : Bool → List Char → Option (List Char)
  | _, [] => none
  | atStart, c :: cs =>
    if atStart && marker.isPrefixOf (c :: cs) then some ((c :: cs).drop marker.length)
    else scanLS marker (isLineTerm c) cs

/-- Group 1 of `VERDICT:\s*(.*)$` applied at the text after the marker, then
trimmed, exactly as `verdictMatch[1].trim()` computes it: the greedy `\s*`
eats the maximal whitespace run (which may cross line terminators), `.*`
then runs to the end of that line (`.` stops at any line terminator) and
the multiline `$` always holds there. -/
def verdictGroup (rest : List Char) : String :=
  ⟨trimChars ((rest.dropWhile isJsWS).takeWhile (fun c => !isLineTerm c))⟩

/-- Split a text at the leftmost occurrence of the literal `pat`, returning
the text strictly before it and the text strictly after it; `none` when
`pat` does not occur. -/
def splitAtSub (pat : List Char) : List Char → Option (List Char × List Char)
  | [] => if pat = [] then some ([], []) else none
  | c :: cs =>
    if pat.isPrefixOf (c :: cs) then some ([], (c :: cs).drop pat.length)
    else
      match splitAtSub pat cs with
      | some (pre, post) => some (c :: pre, post)
      | none => none

/-- Realise the lazy `.*?===` fragment: find the earliest `===` that `.*?`
can reach, i.e. the first occurrence before any line terminator, and return
the text after it. -/
def findCloseEq : List Char → Option (List Char)
  | [] => none
  | c :: cs =>
    if ("===".data).isPrefixOf (c :: cs) then some ((c :: cs).drop 3)
    else if isLineTerm c then none
    else findCloseEq cs

/-- Leftmost match of `=== JAPANESE.*?===`, returning the text after the
closing `===`.  The engine tries each start position in order; at an
occurrence of the literal `=== JAPANESE` whose line has no later `===` the
match attempt fails and the scan resumes one character further (the
remaining `\s*([\s\S]*?)$` always succeeds, so no other backtracking
arises). -/
def findJpBlock : List Char → Option (List Char)
  | [] => none
  | c :: cs =>
    if ("=== JAPANESE".data).isPrefixOf (c :: cs) then
      match findCloseEq ((c :: cs).drop 12) with
      | some rest => some rest
      | none => findJpBlock cs
    else findJpBlock cs

/-- Verdict Parser of `src/lib/geminiApi.ts` (`parseGeminiResponse`).

Control flow of the source: extract the text candidate (`noText` when the
optional chain is `undefined` or the text is the empty string, both falsy);
match regex 1 and throw the format error when it has no match, otherwise
take the trimmed group as the verdict; match regexes 2 and 3 independently,
substituting the two "not provided" placeholders when they fail; return the
structured result with the raw reply attached.

For regex 2 the lazy group stops at the first position from which
`\s*=== JAPANESE` matches, which is determined by the first occurrence of
the literal `=== JAPANESE` after the English marker; the difference between
that position and the occurrence itself is whitespace, which the final
`.trim()` removes, so the group is modelled as the text up to the
occurrence, trimmed. -/
def parseGeminiResponse (response : GeminiResponse) : Except ParseFailure AnalysisResult :=
  match response.text with
  | none => .error .noText
  | some t =>
    if t = "" then .error .noText
    else
      match scanLS ("VERDICT:".data) true t.data with
      | none => .error (.formatError t)
      | some afterV =>
        let verdict := verdictGroup afterV
        let englishReason :=
          match splitAtSub ("=== ENGLISH ===".data) t.data with
          | none => "No English reason provided"
          | some (_, afterE) =>
            match splitAtSub ("=== JAPANESE".data) afterE with
            | some (pre, _) => (⟨trimChars pre⟩ : String)
            | none => (⟨trimChars afterE⟩ : String)
        let japaneseReason :=
          match findJpBlock t.data with
          | none => "No Japanese reason provided"
          | some rest => (⟨trimChars rest⟩ : String)
        .ok ⟨verdict, englishReason, japaneseReason, t⟩

instance {ε α : Type} [DecidableEq ε] [DecidableEq α] : DecidableEq (Except ε α) := fun a b =>
  match a, b with
  | .ok x, .ok y =>
    if h : x = y then .isTrue (congrArg Except.ok h)
    else .isFalse (fun hc => h (Except.ok.inj hc))
  | .error x, .error y =>
    if h : x = y then .isTrue (congrArg Except.error h)
    else .isFalse (fun hc => h (Except.error.inj hc))
  | .ok _, .error _ => .isFalse (fun hc => Except.noConfusion hc)
  | .error _, .ok _ => .isFalse (fun hc => Except.noConfusion hc)

/-! ## Verdict Parser, OpenAI variant (src/lib/openaiApi.ts, parseOpenAIResponse)

The source matches three case-insensitive regular expressions:

1. `/VERDICT:\s*(.*?)(?:\n|$)/i` (not anchored at a line start)
2. `/===\s*ENGLISH\s*===\s*\n([\s\S]*?)(?====\s*JAPANESE|$)/i`
3. `/===\s*JAPANESE.*?===\s*\n([\s\S]*?)$/i`

and, unlike the Gemini parser, never fails: a missing verdict line yields
the string "Unknown" and missing language blocks yield empty strings. -/

/-- Case-insensitive prefix test, realising the `i` regex flag by simple
case folding (all the markers are ASCII). -/
def ciPrefixOf : List Char → List Char → Bool
  | [], _ => true
  | _ :: _, [] => false
  | a :: as, b :: bs => (a.toLower == b.toLower) && ciPrefixOf as bs

/-- Attempt `\s*(.*?)(?:\n|$)` at the text after a `VERDICT:` occurrence.
The greedy `\s*` takes the maximal whitespace run; the lazy group then
extends over non-line-terminator characters and can only stop where the
next character is a literal `'\n'` or at the end of input (without the `m`
flag `$` is end of input only).  When the run of `.`-matchable characters
ends at a `'\r'`, `U+2028` or `U+2029` instead, the attempt fails. -/
def openaiVerdictGroup (l : List Char) : Option (List Char) :=
  let afterWs := l.dropWhile isJsWS
  match afterWs.dropWhile (fun c => !isLineTerm c) with
  | [] => some (afterWs.takeWhile (fun c => !isLineTerm c))
  | c :: _ => if c = '\n' then some (afterWs.takeWhile (fun c => !isLineTerm c)) else none

/-- Leftmost match of regex 1: at each case-insensitive occurrence of
`VERDICT:` try the rest of the pattern, moving on to the next occurrence
when it fails. -/
def scanOpenaiVerdict : List Char → Option (List Char)
  | [] => none
  | c :: cs =>
    if ciPrefixOf ("VERDICT:".data) (c :: cs) then
      match openaiVerdictGroup ((c :: cs).drop 8) with
      | some g => some g
      | none => scanOpenaiVerdict cs
    else scanOpenaiVerdict cs

/-- Greedy match of `\s*\n` at the head of the text, returning the text
after the consumed newline: the last `'\n'` inside the maximal whitespace
run, when the run has one. -/
def dropWsThenNl : List Char → Option (List Char)
  | [] => none
  | c :: cs =>
    if isJsWS c then
      match dropWsThenNl cs with
      | some r => some r
      | none => if c = '\n' then some cs else none
    else none

/-- Attempt `===\s*ENGLISH\s*===\s*\n` at the head of the text (regex 2 up
to its capture group).  Each inner `\s*` is followed by a non-whitespace
literal, so greedy maximal runs are exact. -/
def matchEngHeader (l : List Char) : Option (List Char) :=
  if ("===".data).isPrefixOf l then
    let l1 := (l.drop 3).dropWhile isJsWS
    if ciPrefixOf ("ENGLISH".data) l1 then
      let l2 := (l1.drop 7).dropWhile isJsWS
      if ("===".data).isPrefixOf l2 then dropWsThenNl (l2.drop 3)
      else none
    else none
  else none

/-- The lookahead `(?====\s*JAPANESE|$)` of regex 2, tested at one
position: `===`, whitespace, then a case-insensitive `JAPANESE`. -/
def matchEqWsJap (l : List Char) : Bool :=
  ("===".data).isPrefixOf l && ciPrefixOf ("JAPANESE".data) ((l.drop 3).dropWhile isJsWS)

/-- Drive a position-wise matcher over every start position in order,
realising the regex engine's leftmost-match rule. -/
def scanFirst (m : List Char → Option (List Char)) : List Char → Option (List Char)
  | [] => m []
  | c :: cs =>
    match m (c :: cs) with
    | some r => some r
    | none => scanFirst m cs

/-- Take characters until the test holds at the current position (the lazy
`[\s\S]*?` stopping at the first position where a lookahead matches), or to
the end when it never holds. -/
def takeUntilTest (test : List Char → Bool) : List Char → List Char
  | [] => []
  | c :: cs => if test (c :: cs) then [] else c :: takeUntilTest test cs

/-- Realise `.*?===\s*\n`: find the earliest `===` before a line
terminator such that `\s*\n` succeeds after it; when `\s*\n` fails there,
the lazy `.*?` grows one character and the search resumes. -/
def closeEqThenNl : List Char → Option (List Char)
  | [] => none
  | c :: cs =>
    if ("===".data).isPrefixOf (c :: cs) then
      match dropWsThenNl ((c :: cs).drop 3) with
      | some r => some r
      | none => if isLineTerm c then none else closeEqThenNl cs
    else if isLineTerm c then none
    else closeEqThenNl cs

/-- Attempt `===\s*JAPANESE.*?===\s*\n` at the head of the text (regex 3 up
to its capture group). -/
def matchJapHeader (l : List Char) : Option (List Char) :=
  if ("===".data).isPrefixOf l then
    let l1 := (l.drop 3).dropWhile isJsWS
    if ciPrefixOf ("JAPANESE".data) l1 then closeEqThenNl (l1.drop 8)
    else none
  else none

/-- Verdict Parser of `src/lib/openaiApi.ts` (`parseOpenAIResponse`).  It
is total: the verdict falls back to "Unknown" and the language blocks fall
back to empty strings; the raw reply is attached unchanged. -/
def parseOpenAIResponse (content : String) : AnalysisResult :=
  let verdict :=
    match scanOpenaiVerdict content.data with
    | some g => (⟨trimChars g⟩ : String)
    | none => "Unknown"
  let englishReason :=
    match scanFirst matchEngHeader content.data with
    | some rest => (⟨trimChars (takeUntilTest matchEqWsJap rest)⟩ : String)
    | none => ""
  let japaneseReason :=
    match scanFirst matchJapHeader content.data with
    | some rest => (⟨trimChars rest⟩ : String)
    | none => ""
  ⟨verdict, englishReason, japaneseReason, content⟩

/-! ## Verdict Requester (src/lib/geminiApi.ts, callGeminiApi)

The network is modelled by a simulated sequence of outcomes, one per
attempt, so the retry loop becomes a pure function producing a trace of the
attempts made and the backoff delays awaited. -/

/-- Outcome of one simulated `fetch` to the service.  `response` is a
resolved promise carrying the HTTP status, the decoded JSON body, and the
string `errorData.error?.message || response.statusText` that the code
reads from a non-ok response.  `exn` is any exception escaping the `try`
body: a rejected fetch (transport failure) or a body that fails to decode
as JSON. -/
inductive SimResponse (β : Type) where
  | response (status : Nat) (body : β) (errorMessage : String)
  | exn (msg : String)
deriving DecidableEq

/-- The `Response.ok` accessor of the Fetch API: status 200 to 299. -/
def isOkStatus (s : Nat) : Bool := 200 ≤ s && s ≤ 299

/-- Trace of a retry loop: its result, how many attempts were begun, and
every backoff delay awaited, in milliseconds and in order. -/
structure RetryTrace (β : Type) where
  result : Except String β
  attempts : Nat
  delays : List Nat
deriving DecidableEq

/-- Retry loop of `callGeminiApi`, modelled over the list of outcomes of
the remaining attempts (the list carries exactly `retries - i` entries, so
`rest.isEmpty` is the source's `i === retries - 1` test).  Per iteration:

- an ok response returns its body at once;
- a 429 or 5xx status logs, awaits `delay`, doubles it and retries — also
  when this was the final attempt, in which case the loop then exits and
  the final "Failed to get response..." error is thrown;
- any other status throws `API Error: ...` inside the `try`, so the catch
  block receives it: on the final attempt it is rethrown, otherwise the
  loop awaits `delay`, doubles it and retries;
- an exception is rethrown on the final attempt, otherwise the loop awaits
  `delay`, doubles it and retries. -/
def callLoop {β : Type} : List (SimResponse β) → Nat → RetryTrace β
  | [], _ => ⟨.error "Failed to get response from Gemini API after retries", 0, []⟩
  | o :: rest, delay =>
    match o with
    | .response status body errorMessage =>
      if isOkStatus status then ⟨.ok body, 1, []⟩
      else if status == 429 || 500 ≤ status then
        let t := callLoop rest (delay * 2)
        ⟨t.result, t.attempts + 1, delay :: t.delays⟩
      else if rest.isEmpty then ⟨.error ("API Error: " ++ errorMessage), 1, []⟩
      else
        let t := callLoop rest (delay * 2)
        ⟨t.result, t.attempts + 1, delay :: t.delays⟩
    | .exn msg =>
      if rest.isEmpty then ⟨.error msg, 1, []⟩
      else
        let t := callLoop rest (delay * 2)
        ⟨t.result, t.attempts + 1, delay :: t.delays⟩

/-- Trace of one `callGeminiApi` call: the request URL it built (which
embeds the API key) together with the retry trace. -/
structure CallTrace (β : Type) where
  apiUrl : String
  result : Except String β
  attempts : Nat
  delays : List Nat
deriving DecidableEq

/-- The endpoint URL built by `callGeminiApi`; the key is interpolated into
the query string. -/
def geminiApiUrl (apiKey : String) : String :=
  "https://generativelanguage.googleapis.com/v1beta/models/gemini-2.5-flash-preview-09-2025:generateContent?key="
    ++ apiKey

/-- Requester of `src/lib/geminiApi.ts` (`callGeminiApi`): 3 attempts, the
first backoff delay 1000 ms.  The prompts are carried for fidelity of the
signature; the simulated outcomes determine the trace. -/
def callGeminiApi {β : Type} (userQuery systemPrompt apiKey : String)
    (responses : Nat → SimResponse β) : CallTrace β :=
  let _ := userQuery
  let _ := systemPrompt
  let t := callLoop [responses 0, responses 1, responses 2] 1000
  ⟨geminiApiUrl apiKey, t.result, t.attempts, t.delays⟩

/-- System prompt of `analyzeWithGemini`, preserved verbatim from the
source (the fixed bilingual instruction template of the spec), with the
two interpolations of the product name made explicit. -/
def systemPrompt (productName : String) : String :=
  "
You are an expert AI assistant specializing in EU food export compliance.
You will receive structured product information (name and ingredients list) and must determine if the product is \"Export OK\" or \"Export NOT OK\" for the EU market.

IMPORTANT: You must ONLY use the specific URLs provided below. DO NOT perform general Google searches or search the entire web.

Your workflow:

1.  **Step 1: Parse Ingredients:**
    * The ingredients list follows Japanese food labeling format where items are separated by a delimiter.
    * Look for the \"／\" (full-width slash) or \"/\" (regular slash) separator in the ingredients.
    * **Items BEFORE \"／\" or \"/\":** These are raw materials (原材料) - check these in Step 2.
    * **Items AFTER \"／\" or \"/\":** These are additives (添加物) - check these in Step 3.
    * Example: \"ぶり、しょうゆ、粗糖　／　増粘剤（加工デンプン）、調味料（アミノ酸等）\"
      - Raw materials: ぶり、しょうゆ、粗糖
      - Additives: 増粘剤（加工デンプン）、調味料（アミノ酸等）

2.  **Step 2: Check Raw Materials (原材料の確認):**
    * For each raw material identified in Step 1 (items BEFORE the \"／\" or \"/\" separator), check for EU import restrictions.
    * **ONLY use this URL:** https://eur-lex.europa.eu/legal-content/EN/TXT/?uri=CELEX%3A02008R1333-20241216
    * Check for: import restrictions, quotas, container regulations, or high-risk alerts.
    * DO NOT use general Google search for this step.

3.  **Step 3: Check Additives/E-Numbers (添加物確認):**
    
    **Step 3A: Find E-Number**
    * For each additive identified in Step 1 (items AFTER the \"／\" or \"/\" separator), find its corresponding E-Number.
    * **ONLY use this URL:** https://www.chuohoki.co.jp/site/pg/12362878/
    * If an additive exists but you *cannot* find an E-Number for it, mark it as \"No E-Number Found\" and proceed to Step 4 (this will result in \"Export NOT OK\").
    
    **Step 3B: Verify EU Approval Status**
    * **CRITICAL:** Even if an E-Number is found, you MUST verify if it is approved for use in the EU.
    * **ONLY use these URLs:**
      - https://ec.europa.eu/food/food-feed-portal/screen/food-additives/search
      - https://eur-lex.europa.eu/legal-content/EN/TXT/?uri=CELEX%3A02008R1333-20241216
    * Search for the E-Number and confirm its approval status in the EU.
    * **CRITICAL RULES:**
      - E-Number found + EU approved = OK
      - E-Number found + NOT EU approved = NOT OK
      - E-Number not found = NOT OK
    * DO NOT use general Google search for this step.

4.  **Step 4: Synthesize Verdict:**
    * The verdict is \"Export NOT OK\" if *any* of the following:
        * A raw material has a clear import restriction (e.g., \"EU ban on [ingredient]\")
        * An additive has *no E-Number*
        * An additive has an E-Number but is *NOT approved in the EU*
    * The verdict is \"Export OK\" only if:
        * All raw materials have no import restrictions
        * All additives have E-Numbers AND all are approved in the EU

5.  **Format Output:**
    You MUST provide your response in BOTH English and Japanese, in this exact format:

---

VERDICT: [Export OK | Export NOT OK]

=== ENGLISH ===
REASON:
-   **Product Analyzed:** " ++ productName ++ "
-   **Ingredients Provided:** [List the ingredients]
-   **Step 1 (Ingredient Parsing):**
    - Raw Materials: [list]
    - Additives: [list]
-   **Step 2 (Raw Materials Check):** [Bulleted findings from EU regulation URL only]
-   **Step 3 (Additives Check):**
    - **Step 3A (E-Number Identification):** [For each additive, state the E-Number found or \"No E-Number Found\"]
    - **Step 3B (EU Approval Verification):** [For each E-Number found, confirm EU approval status. Example: \"E420 (Sorbitol): Approved in EU (OK)\" or \"E127: NOT approved in EU (NOT OK)\" or \"Unknown additive: No E-Number found (NOT OK)\"]
-   **Step 4 (Final Assessment):** [Summary of why the product is OK or NOT OK]
-   **Step 5 (Importer Confirmation):** This is a mandatory manual step. Final decision must be confirmed with your EU import partner.

**Reference Sources:**
- EU Food Additives Regulation: [Regulation 1333/2008](https://eur-lex.europa.eu/legal-content/EN/TXT/?uri=CELEX%3A02008R1333-20241216)
- EU Food Additives Database: [EC Food Additives Portal](https://ec.europa.eu/food/food-feed-portal/screen/food-additives/search)
- Additive E-Number Index: [Chuohoki Additive Index](https://www.chuohoki.co.jp/site/pg/12362878/)

=== JAPANESE (日本語) ===
理由:
-   **分析対象商品:** " ++ productName ++ "
-   **提供された原材料:** [原材料のリスト]
-   **ステップ1 (原材料の分類):**
    - 原材料: [リスト]
    - 添加物: [リスト]
-   **ステップ2 (原料チェック):** [EU規制URLのみを使用した調査結果を箇条書き]
-   **ステップ3 (添加物チェック):**
    - **ステップ3A (E番号の特定):** [各添加物について、見つかったE番号または「E番号が見つかりません」と記載]
    - **ステップ3B (EU承認状況の確認):** [見つかった各E番号について、EU承認状況を確認。例: \"E420 (ソルビトール): EUで承認済み (OK)\" または \"E127: EUで未承認 (NOT OK)\" または \"不明な添加物: E番号が見つかりません (NOT OK)\"]
-   **ステップ4 (最終評価):** [製品がOKまたはNOT OKである理由のまとめ]
-   **ステップ5 (輸入業者確認):** これは必須の手動ステップです。最終決定はEU輸入パートナーと確認する必要があります。

**参照元:**
- EU食品添加物規則: [規則 1333/2008](https://eur-lex.europa.eu/legal-content/EN/TXT/?uri=CELEX%3A02008R1333-20241216)
- EU食品添加物データベース: [EC食品添加物ポータル](https://ec.europa.eu/food/food-feed-portal/screen/food-additives/search)
- 添加物E番号インデックス: [中央法規添加物インデックス](https://www.chuohoki.co.jp/site/pg/12362878/)
"

/-- User query of `analyzeWithGemini`, built deterministically from product
name and ingredients. -/
def userQuery (productName ingredients : String) : String :=
  "
Product Name: " ++ productName ++ "
Ingredients (原材料): " ++ ingredients ++ "

Please analyze these ingredients for EU export compliance following the workflow above.
Provide the analysis in BOTH English and Japanese as specified in the format.
IMPORTANT: Include the Reference Sources section with clickable markdown links at the end of each language section.
"

/-- Error message thrown by `analyzeWithGemini` when no API key is
available. -/
def keyRequiredMessage : String :=
  "GEMINI_API_KEY is required. Either provide it as a parameter or set it in the .env file."

/-- Render a `ParseFailure` as the message of the Error the source throws. -/
def ParseFailure.message : ParseFailure → String
  | .noText => "No text content in Gemini API response"
  | .formatError raw =>
    "AI response was not in the expected format. Raw response:\n\n" ++ raw

/-- Trace of one `analyzeWithGemini` call: its result, the request URL of
the service call when one was made (`none` when the function failed before
any network request), and the attempt and backoff trace of that call. -/
structure AnalyzeTrace where
  result : Except String AnalysisResult
  apiUrl : Option String
  attempts : Nat
  delays : List Nat
deriving DecidableEq

/-- Entry point of `src/lib/geminiApi.ts` (`analyzeWithGemini`).

Key resolution is the JavaScript `apiKey || process.env.GEMINI_API_KEY`
followed by `if (!effectiveApiKey) throw ...`: an absent (`none`) or empty
argument falls back to the environment variable (`none` when unset), and a
falsy effective key (absent or empty) throws before any network request.
The prompts are then built deterministically and the requester is invoked
with the effective key; its result is parsed. -/
def analyzeWithGemini (productName ingredients : String) (apiKey : Option String)
    (envGeminiApiKey : Option String) (responses : Nat → SimResponse GeminiResponse) :
    AnalyzeTrace :=
  let effectiveApiKey :=
    match apiKey with
    | some k => if k = "" then envGeminiApiKey else some k
    | none => envGeminiApiKey
  match effectiveApiKey with
  | none => ⟨.error keyRequiredMessage, none, 0, []⟩
  | some key =>
    if key = "" then ⟨.error keyRequiredMessage, none, 0, []⟩
    else
      let call := callGeminiApi (userQuery productName ingredients)
        (systemPrompt productName) key responses
      match call.result with
      | .error e => ⟨.error e, some call.apiUrl, call.attempts, call.delays⟩
      | .ok body =>
        match parseGeminiResponse body with
        | .error f => ⟨.error f.message, some call.apiUrl, call.attempts, call.delays⟩
        | .ok r => ⟨.ok r, some call.apiUrl, call.attempts, call.delays⟩

/-! ## Fetcher (src/lib/fetchProduct.ts, fetchProductPage)

The source tries a direct fetch and then the three CORS proxies of
`CORS_PROXIES` in declared order.  The outcome of fetching each URL is
supplied as a simulated outcome; the per-proxy loop accumulates one error
message per failed proxy and the aggregated failure carries both the list
and the rendered message. -/

/-- Aggregated failure of the Fetcher: the `errors` array accumulated by
the proxy loop and the message of the Error finally thrown. -/
structure FetchFailure where
  errors : List String
  message : String
deriving DecidableEq

/-- Message of the Error thrown when every strategy failed. -/
def fetchErrorMessage (errors : List String) : String :=
  "Failed to fetch product page after trying all methods.\n\nErrors:\n"
    ++ String.intercalate "\n" errors
    ++ "\n\nThe product URL may be invalid, blocked, or the proxy services may be unavailable. Please try again later."

/-- Proxy loop of `fetchProductPage`, over the outcomes of fetching the
proxy URLs in declared order; `i` is the zero-based index of the current
proxy.  An ok response with a non-empty body is returned; an ok response
with an empty body throws `Empty response from proxy`, which the catch of
the same iteration records as `Proxy i+1: ...`; a non-ok status records
`Proxy i+1 returned status ...`; an exception records `Proxy i+1: ...`. -/
def proxyAttempts : Nat → List (SimResponse String) → List String → Except FetchFailure String
  | _, [], errors => .error ⟨errors, fetchErrorMessage errors⟩
  | i, o :: rest, errors =>
    match o with
    | .response status body _ =>
      if isOkStatus status then
        if body = "" then
          proxyAttempts (i + 1) rest
            (errors ++ ["Proxy " ++ toString (i + 1) ++ ": Empty response from proxy"])
        else .ok body
      else
        proxyAttempts (i + 1) rest
          (errors ++ ["Proxy " ++ toString (i + 1) ++ " returned status " ++ toString status])
    | .exn msg =>
      proxyAttempts (i + 1) rest (errors ++ ["Proxy " ++ toString (i + 1) ++ ": " ++ msg])

/-- Fetcher of `src/lib/fetchProduct.ts` (`fetchProductPage`).  The direct
fetch returns its body on any ok response — the source has no body check on
this path — and on a non-ok status or an exception merely logs a warning
(nothing is recorded in `errors`) and falls through to the proxy loop.
`proxies` lists the outcomes of fetching the three `CORS_PROXIES` URLs in
declared order. -/
def fetchProductPage (direct : SimResponse String) (proxies : List (SimResponse String)) :
    Except FetchFailure String :=
  match direct with
  | .response status body _ =>
    if isOkStatus status then .ok body else proxyAttempts 0 proxies []
  | .exn _ => proxyAttempts 0 proxies []

/-! ## Extractor (src/lib/parseProduct.ts, parseKokubuProduct)

The source parses the HTML with the platform `DOMParser` and then queries
it: four product-name selectors, three ingredient regex patterns matched
against `doc.body.textContent`, and a fallback scan over table rows.  The
platform DOM and regex engine are not part of the repository, so their
answers are taken as an unconstrained input — a `DomView` records, for the
given page, exactly the values the source reads.  The claims proved about
the extractor hold for every `DomView`, hence for whatever the real DOM
produces. -/

/-- What `parseKokubuProduct` observes of a parsed document:

- `nameTexts`: per name selector (in declared order), the `textContent` of
  the first matching element, or `none` when no element matches;
- `patternCaptures`: per ingredient pattern (in declared order), group 1 of
  its match against the body text, or `none` when it does not match;
- `rowSplits`: per row of the fallback query (in document order), whether
  its text contains the label token, and `parts[1]` of splitting the text
  on the label regex (`none` when the split yields no second part). -/
structure DomView where
  nameTexts : List (Option String)
  patternCaptures : List (Option String)
  rowSplits : List (Bool × Option String)
deriving DecidableEq

/-- Product-name loop: the first selector whose element has a non-empty
trimmed `textContent` wins; otherwise the initial "Unknown Product"
placeholder stands. -/
def resolveProductName : List (Option String) → String
  | [] => "Unknown Product"
  | none :: rest => resolveProductName rest
  | some t :: rest => if jsTrim t = "" then resolveProductName rest else jsTrim t

/-- Ingredient pattern loop: at the first non-empty capture the loop
assigns the trimmed capture and breaks (even when the trim comes out
empty); a missing or empty capture moves to the next pattern. -/
def firstPatternCapture : List (Option String) → String
  | [] => ""
  | none :: rest => firstPatternCapture rest
  | some c :: rest => if c = "" then firstPatternCapture rest else jsTrim c

/-- Fallback row loop: for each row whose text contains the label token,
when `parts[1]` is non-empty the loop assigns its trim and breaks (even
when the trim comes out empty); otherwise it moves on. -/
def fallbackRows : List (Bool × Option String) → String
  | [] => ""
  | (hasLabel, p1) :: rest =>
    if hasLabel then
      match p1 with
      | some p => if p = "" then fallbackRows rest else jsTrim p
      | none => fallbackRows rest
    else fallbackRows rest

/-- Extractor of `src/lib/parseProduct.ts` (`parseKokubuProduct`): resolve
the product name, try the ingredient patterns, fall back to the row scan
when they produced nothing, and throw when the ingredients are still
empty. -/
def parseKokubuProduct (d : DomView) (url : String) : Except String ProductData :=
  let productName := resolveProductName d.nameTexts
  let fromPatterns := firstPatternCapture d.patternCaptures
  let ingredients := if fromPatterns = "" then fallbackRows d.rowSplits else fromPatterns
  if ingredients = "" then
    .error "Could not find ingredients (原材料) on the product page. Please check the URL or enter ingredients manually."
  else .ok ⟨productName, ingredients, url⟩

/-! ## Ingredient Splitter -/

/-- Modelled from the spec: the Ingredient Splitter of section 4.3.  No
executable splitter exists in the repository — the split is delegated to
the reasoning service by the instruction templates (src/lib/geminiApi.ts
lines 34 to 41 and src/lib/openaiApi.ts lines 48 to 55), so this
definition follows the wording of the spec: locate the first occurrence of the
full-width slash or, failing that, the plain slash; the text strictly
before it is the raw-materials segment and the text strictly after it the
additives segment, each trimmed (section 8: with no slash the raw-materials
segment equals the trimmed input, and reconstruction holds modulo
surrounding whitespace); with no separator the whole string is raw
materials and the additives segment is empty. -/
def splitIngredientSegments (s : String) : String × String :=
  if '／' ∈ s.data then
    (⟨trimChars (s.data.takeWhile (fun c => c ≠ '／'))⟩,
     ⟨trimChars ((s.data.dropWhile (fun c => c ≠ '／')).drop 1)⟩)
  else if '/' ∈ s.data then
    (⟨trimChars (s.data.takeWhile (fun c => c ≠ '/'))⟩,
     ⟨trimChars ((s.data.dropWhile (fun c => c ≠ '/')).drop 1)⟩)
  else (jsTrim s, "")

/-! ## Supporting lemmas for the retry claims -/

/-- The doubling backoff schedule: `n` delays starting at `d`. -/
def geomDelays : Nat → Nat → List Nat
  | _, 0 => []
  | d, n + 1 => d :: geomDelays (d * 2) n

theorem isOkStatus_false_of_retryable {c : Nat} (h : (c == 429 || 500 ≤ c) = true) :
    isOkStatus c = false := by
  have hc : c = 429 ∨ 500 ≤ c := by
    have h2 := h
    simp only [Bool.or_eq_true, beq_iff_eq, decide_eq_true_eq] at h2
    exact h2
  simp only [isOkStatus]
  rcases hc with rfl | hc
  · decide
  · have h3 : ¬ (c ≤ 299) := by omega
    simp [h3]

theorem callLoop_attempts_le {β : Type} (outs : List (SimResponse β)) (d : Nat) :
    (callLoop outs d).attempts ≤ outs.length := by
  induction outs generalizing d with
  | nil => simp [callLoop]
  | cons o rest ih =>
    cases o with
    | response st b m =>
      simp only [callLoop, List.length_cons]
      by_cases hok : isOkStatus st
      · simp [hok]
      · simp only [hok, Bool.false_eq_true, if_false]
        by_cases hr : (st == 429 || 500 ≤ st) = true
        · simp only [hr, if_true]
          have := ih (d * 2)
          omega
        · simp only [hr, if_false]
          by_cases he : rest.isEmpty
          · simp [he]
          · simp only [he, Bool.false_eq_true, if_false]
            have := ih (d * 2)
            omega
    | exn m =>
      simp only [callLoop, List.length_cons]
      by_cases he : rest.isEmpty
      · simp [he]
      · simp only [he, Bool.false_eq_true, if_false]
        have := ih (d * 2)
        omega

theorem callLoop_delays_geom {β : Type} (outs : List (SimResponse β)) (d : Nat) :
    ∃ n, (callLoop outs d).delays = List.take n (geomDelays d outs.length) := by
  induction outs generalizing d with
  | nil => exact ⟨0, rfl⟩
  | cons o rest ih =>
    cases o with
    | response st b m =>
      by_cases hok : isOkStatus st
      · exact ⟨0, by simp [callLoop, hok]⟩
      · by_cases hr : (st == 429 || 500 ≤ st) = true
        · obtain ⟨n, hn⟩ := ih (d * 2)
          exact ⟨n + 1, by simp [callLoop, hok, hr, hn, geomDelays]⟩
        · by_cases he : rest.isEmpty
          · exact ⟨0, by simp [callLoop, hok, hr, he]⟩
          · obtain ⟨n, hn⟩ := ih (d * 2)
            exact ⟨n + 1, by simp [callLoop, hok, hr, he, hn, geomDelays]⟩
    | exn m =>
      by_cases he : rest.isEmpty
      · exact ⟨0, by simp [callLoop, he]⟩
      · obtain ⟨n, hn⟩ := ih (d * 2)
        exact ⟨n + 1, by simp [callLoop, he, hn, geomDelays]⟩

/-! ## Claim C2 -/

/-- C2 (code bug): sequence of 400 responses.  Because the non-retryable
`API Error` throw sits inside the `try` block, the catch of the same
iteration swallows it and retries with backoff: the trace shows 3 attempts
and the delays 1000 and 2000 ms before the final API Error propagates —
whereas the claim requires an immediate failure with one attempt, zero
retries and zero delays. -/
theorem non_retryable_status_retried :
    callGeminiApi "q" "sys" "key"
        (fun _ => SimResponse.response 400 (GeminiResponse.mk none) "Bad Request")
      = ⟨geminiApiUrl "key", .error "API Error: Bad Request", 3, [1000, 2000]⟩ := rfl

/-! ## Claim C3 -/

/-- C3 counterexample: with a retryable 429 on every attempt the loop
awaits three backoff delays — 1000, 2000 and 4000 ms, the last one after
the third and final attempt — before the terminal error is thrown, so a
backoff delay does occur after the final attempt. -/
theorem final_attempt_backoff :
    callGeminiApi "q" "sys" "key"
        (fun _ => SimResponse.response 429 (GeminiResponse.mk none) "rate limited")
      = ⟨geminiApiUrl "key",
          .error "Failed to get response from Gemini API after retries", 3,
          [1000, 2000, 4000]⟩ := rfl

/-- C3 amended: the Requester makes at most 3 attempts; on [429, 503, 200]
it returns the ok result of the third attempt after exactly two backoff
delays of 1000 then 2000 ms; every delay trace is an initial piece of the
doubling schedule 1000, 2000, 4000 started before the first retry; and
when all three attempts fail with retryable statuses the third, doubled
delay is awaited after the final attempt before the terminal error
(transport exceptions and non-retryable statuses on the final attempt
propagate without that trailing delay). -/
theorem retry_policy_amended (userQ sysP key : String)
    (responses : Nat → SimResponse GeminiResponse)
    (body200 b0 b1 b2 : GeminiResponse) (e0 e1 m0 m1 m2 : String)
    (c0 c1 c2 : Nat)
    (h0 : (c0 == 429 || 500 ≤ c0) = true)
    (h1 : (c1 == 429 || 500 ≤ c1) = true)
    (h2 : (c2 == 429 || 500 ≤ c2) = true) :
    (callGeminiApi userQ sysP key responses).attempts ≤ 3 ∧
      (∃ n, (callGeminiApi userQ sysP key responses).delays = List.take n [1000, 2000, 4000]) ∧
      callGeminiApi userQ sysP key
          ((fun i => if i = 0 then SimResponse.response 429 b0 e0
            else if i = 1 then SimResponse.response 503 b0 e1
            else SimResponse.response 200 body200 "") : Nat → SimResponse GeminiResponse)
        = ⟨geminiApiUrl key, .ok body200, 3, [1000, 2000]⟩ ∧
      callGeminiApi userQ sysP key
          ((fun i => if i = 0 then SimResponse.response c0 b0 m0
            else if i = 1 then SimResponse.response c1 b1 m1
            else SimResponse.response c2 b2 m2) : Nat → SimResponse GeminiResponse)
        = ⟨geminiApiUrl key, .error "Failed to get response from Gemini API after retries", 3,
            [1000, 2000, 4000]⟩ := by
  have k0 := isOkStatus_false_of_retryable h0
  have k1 := isOkStatus_false_of_retryable h1
  have k2 := isOkStatus_false_of_retryable h2
  refine ⟨callLoop_attempts_le _ 1000, ?_, rfl, ?_⟩
  · obtain ⟨n, hn⟩ := callLoop_delays_geom
      [responses 0, responses 1, responses 2] 1000
    exact ⟨n, hn⟩
  · simp only [callGeminiApi, callLoop]
    simp [k0, k1, k2, h0, h1, h2]

/-- Witness for C3 at concrete retryable statuses 429, 503 and 500. -/
theorem retry_policy_amended_witness :
    (callGeminiApi "q" "sys" "key"
        ((fun _ => SimResponse.exn "down") : Nat → SimResponse GeminiResponse)).attempts ≤ 3 ∧
      (∃ n, (callGeminiApi "q" "sys" "key"
          ((fun _ => SimResponse.exn "down") : Nat → SimResponse GeminiResponse)).delays
        = List.take n [1000, 2000, 4000]) ∧
      callGeminiApi "q" "sys" "key"
          ((fun i => if i = 0 then SimResponse.response 429 (GeminiResponse.mk none) "a"
            else if i = 1 then SimResponse.response 503 (GeminiResponse.mk none) "b"
            else SimResponse.response 200 (GeminiResponse.mk (some "VERDICT: ok")) "")
              : Nat → SimResponse GeminiResponse)
        = ⟨geminiApiUrl "key", .ok (GeminiResponse.mk (some "VERDICT: ok")), 3, [1000, 2000]⟩ ∧
      callGeminiApi "q" "sys" "key"
          ((fun i => if i = 0 then SimResponse.response 429 (GeminiResponse.mk none) "x"
            else if i = 1 then SimResponse.response 503 (GeminiResponse.mk none) "y"
            else SimResponse.response 500 (GeminiResponse.mk none) "z")
              : Nat → SimResponse GeminiResponse)
        = ⟨geminiApiUrl "key", .error "Failed to get response from Gemini API after retries", 3,
            [1000, 2000, 4000]⟩ :=
  retry_policy_amended "q" "sys" "key"
    ((fun _ => SimResponse.exn "down") : Nat → SimResponse GeminiResponse)
    (GeminiResponse.mk (some "VERDICT: ok")) (GeminiResponse.mk none) (GeminiResponse.mk none)
    (GeminiResponse.mk none) "a" "b" "x" "y" "z" 429 503 500
    (by decide) (by decide) (by decide)

/-! ## Claim C9 -/

theorem parseGeminiResponse_rawResponse {t : String} {r : AnalysisResult}
    (h : parseGeminiResponse ⟨some t⟩ = Except.ok r) : r.rawResponse = t := by
  simp only [parseGeminiResponse] at h
  by_cases h0 : t = ""
  · rw [if_pos h0] at h
    cases h
  · rw [if_neg h0] at h
    cases hscan : scanLS ("VERDICT:".data) true t.data with
    | none => rw [hscan] at h; cases h
    | some afterV =>
      rw [hscan] at h
      cases h
      rfl

/-- C9: parsing is idempotent.  When the Gemini parser succeeds, the
rawResponse field of the result is the input text, so re-parsing it
succeeds with the identical result; the OpenAI parser, being total with
the same rawResponse convention, satisfies the equation outright. -/
theorem parse_idempotent (t s : String) (r : AnalysisResult)
    (h : parseGeminiResponse ⟨some t⟩ = Except.ok r) :
    parseGeminiResponse ⟨some r.rawResponse⟩ = Except.ok r ∧
      parseOpenAIResponse (parseOpenAIResponse s).rawResponse = parseOpenAIResponse s := by
  refine ⟨?_, rfl⟩
  rw [parseGeminiResponse_rawResponse h]
  exact h

/-- Witness for C9 at a concrete reply carrying only a verdict line. -/
theorem parse_idempotent_witness :
    parseGeminiResponse ⟨some (AnalysisResult.rawResponse
        ⟨"Export OK", "No English reason provided", "No Japanese reason provided",
          "VERDICT: Export OK"⟩)⟩
      = Except.ok ⟨"Export OK", "No English reason provided", "No Japanese reason provided",
          "VERDICT: Export OK"⟩ ∧
      parseOpenAIResponse (parseOpenAIResponse "VERDICT: Export OK").rawResponse
        = parseOpenAIResponse "VERDICT: Export OK" :=
  parse_idempotent "VERDICT: Export OK" "VERDICT: Export OK"
    ⟨"Export OK", "No English reason provided", "No Japanese reason provided",
      "VERDICT: Export OK"⟩
    (by decide)

/-! ## Claim C10 -/

/-- C10: an absent or empty apiKey argument with an unset environment key
fails with the key-required error before any network request (no URL is
built, no attempt begins, no delay is awaited); a non-empty apiKey
argument is the key embedded in the request URL, whatever the environment
variable holds. -/
theorem api_key_resolution (productName ingredients k : String) (hk : k ≠ "")
    (envK : Option String) (responses : Nat → SimResponse GeminiResponse) :
    analyzeWithGemini productName ingredients none none responses
        = ⟨.error keyRequiredMessage, none, 0, []⟩ ∧
      analyzeWithGemini productName ingredients (some "") none responses
        = ⟨.error keyRequiredMessage, none, 0, []⟩ ∧
      (analyzeWithGemini productName ingredients (some k) envK responses).apiUrl
        = some (geminiApiUrl k) := by
  refine ⟨rfl, rfl, ?_⟩
  simp only [analyzeWithGemini]
  rw [if_neg hk]
  simp only []
  rw [if_neg hk]
  cases hr : (callGeminiApi (userQuery productName ingredients) (systemPrompt productName) k
      responses).result with
  | error e =>
    simp only [hr]
    rfl
  | ok body =>
    cases hp : parseGeminiResponse body with
    | error f =>
      simp only [hr, hp]
      rfl
    | ok r =>
      simp only [hr, hp]
      rfl

/-- Witness for C10 with key "KEY" and environment key "ENV". -/
theorem api_key_resolution_witness :
    analyzeWithGemini "p" "i" none none (fun _ => SimResponse.exn "never")
        = ⟨.error keyRequiredMessage, none, 0, []⟩ ∧
      analyzeWithGemini "p" "i" (some "") none (fun _ => SimResponse.exn "never")
        = ⟨.error keyRequiredMessage, none, 0, []⟩ ∧
      (analyzeWithGemini "p" "i" (some "KEY") (some "ENV")
          (fun _ => SimResponse.exn "never")).apiUrl
        = some (geminiApiUrl "KEY") :=
  api_key_resolution "p" "i" "KEY" (by decide) (some "ENV") (fun _ => SimResponse.exn "never")

/-! ## Claims C5 and C6: the Fetcher -/

/-- A direct-fetch outcome on which the direct strategy does not win: a
non-ok status or an exception.  (Any ok response wins the direct path,
whatever its body.) -/
def directFailedB : SimResponse String → Bool
  | .response status _ _ => !isOkStatus status
  | .exn _ => true

/-- A proxy outcome on which the proxy loop moves on: a non-ok status, an
exception, or an ok response with an empty body. -/
def proxyFailedB : SimResponse String → Bool
  | .response status body _ => !isOkStatus status || body == ""
  | .exn _ => true

/-- The error message the proxy loop records for the `idx`-th proxy
(1-based) when its outcome is a failure. -/
def proxyMsg (idx : Nat) : SimResponse String → String
  | .response status _ _ =>
    if isOkStatus status then "Proxy " ++ toString idx ++ ": Empty response from proxy"
    else "Proxy " ++ toString idx ++ " returned status " ++ toString status
  | .exn msg => "Proxy " ++ toString idx ++ ": " ++ msg

theorem proxyAttempts_failed_step (i : Nat) (o : SimResponse String)
    (ho : proxyFailedB o = true) (rest : List (SimResponse String)) (errors : List String) :
    proxyAttempts i (o :: rest) errors
      = proxyAttempts (i + 1) rest (errors ++ [proxyMsg (i + 1) o]) := by
  cases o with
  | response status body m =>
    by_cases hs : isOkStatus status
    · have hb : body = "" := by
        simp only [proxyFailedB, hs, Bool.not_true, Bool.false_or, beq_iff_eq] at ho
        exact ho
      simp [proxyAttempts, proxyMsg, hs, hb]
    · simp [proxyAttempts, proxyMsg, hs]
  | exn m => simp [proxyAttempts, proxyMsg]

theorem proxyAttempts_ok_step (i status : Nat) (hs : isOkStatus status = true)
    (b : String) (hb : b ≠ "") (em : String) (rest : List (SimResponse String))
    (errors : List String) :
    proxyAttempts i (.response status b em :: rest) errors = .ok b := by
  simp [proxyAttempts, hs, hb]

theorem fetchProductPage_direct_failed (d : SimResponse String)
    (hd : directFailedB d = true) (proxies : List (SimResponse String)) :
    fetchProductPage d proxies = proxyAttempts 0 proxies [] := by
  cases d with
  | response status body m =>
    have hs : isOkStatus status = false := by
      simp only [directFailedB, Bool.not_eq_true'] at hd
      exact hd
    simp [fetchProductPage, hs]
  | exn m => rfl

/-- Every proxy message carries its own 1-based index right after the
common `Proxy ` prefix. -/
theorem proxyMsg_data (idx : Nat) (o : SimResponse String) :
    ∃ t : List Char, (proxyMsg idx o).data = "Proxy ".data ++ ((toString idx).data ++ t) := by
  cases o with
  | response status body m =>
    by_cases hs : isOkStatus status
    · exact ⟨(": Empty response from proxy" : String).data,
        by simp [proxyMsg, hs, List.append_assoc]⟩
    · exact ⟨(" returned status " ++ toString status : String).data,
        by simp [proxyMsg, hs, List.append_assoc]⟩
  | exn msg =>
    exact ⟨(": " ++ msg : String).data, by simp [proxyMsg, List.append_assoc]⟩

theorem proxyMsg_get6 (idx : Nat) (o : SimResponse String) (c : Char)
    (hc : (toString idx).data.head? = some c) :
    (proxyMsg idx o).data[6]? = some c := by
  obtain ⟨t, ht⟩ := proxyMsg_data idx o
  rw [ht]
  rw [List.getElem?_append_right (by decide : ("Proxy ".data).length ≤ 6)]
  have h6 : (6 : Nat) - ("Proxy ".data).length = 0 := by decide
  rw [h6]
  cases hd : (toString idx).data with
  | nil => rw [hd] at hc; cases hc
  | cons a as =>
    rw [hd] at hc
    cases hc
    simp

theorem proxyMsg_ne {i j : Nat} (o o2 : SimResponse String) (ci cj : Char)
    (hi : (toString i).data.head? = some ci) (hj : (toString j).data.head? = some cj)
    (hij : ci ≠ cj) : proxyMsg i o ≠ proxyMsg j o2 := by
  intro h
  have h6 := congrArg (fun s : String => s.data[6]?) h
  simp only at h6
  rw [proxyMsg_get6 i o ci hi, proxyMsg_get6 j o2 cj hj] at h6
  exact hij (Option.some.inj h6)

/-- C6 counterexample: every strategy fails (the direct request with the
exception `direct fetch failed`, the proxies with a 403, a timeout
exception and an empty body).  The aggregated error records one message
per failed proxy but nothing for the direct request: its message is absent
from the error list, so the diagnostic does not contain a distinct message
for the direct request, contrary to the claim. -/
theorem direct_error_not_aggregated :
    fetchProductPage (.exn "direct fetch failed")
        [.response 403 "x" "", .exn "timeout", .response 200 "" ""]
      = .error ⟨["Proxy 1 returned status 403", "Proxy 2: timeout",
          "Proxy 3: Empty response from proxy"],
          fetchErrorMessage ["Proxy 1 returned status 403", "Proxy 2: timeout",
            "Proxy 3: Empty response from proxy"]⟩ ∧
      "direct fetch failed" ∉ (["Proxy 1 returned status 403", "Proxy 2: timeout",
          "Proxy 3: Empty response from proxy"] : List String) :=
  ⟨rfl, by decide⟩

/-- C6 amended: when the direct request and all three relay strategies
fail, the Fetcher fails with a single aggregated error whose error list
holds exactly one message per failed relay strategy, in order, pairwise
distinct (each names its own relay index), and whose text is rendered from
that list; the direct request contributes no message of its own. -/
theorem fetch_aggregate_amended (d : SimResponse String) (hd : directFailedB d = true)
    (p1 p2 p3 : SimResponse String) (h1 : proxyFailedB p1 = true)
    (h2 : proxyFailedB p2 = true) (h3 : proxyFailedB p3 = true) :
    fetchProductPage d [p1, p2, p3]
      = .error ⟨[proxyMsg 1 p1, proxyMsg 2 p2, proxyMsg 3 p3],
          fetchErrorMessage [proxyMsg 1 p1, proxyMsg 2 p2, proxyMsg 3 p3]⟩ ∧
      List.Pairwise (fun a b => a ≠ b) [proxyMsg 1 p1, proxyMsg 2 p2, proxyMsg 3 p3] := by
  constructor
  · rw [fetchProductPage_direct_failed d hd,
      proxyAttempts_failed_step 0 p1 h1,
      proxyAttempts_failed_step 1 p2 h2,
      proxyAttempts_failed_step 2 p3 h3]
    simp [proxyAttempts]
  · refine List.Pairwise.cons ?_ (List.Pairwise.cons ?_ (List.pairwise_singleton _ _))
    · intro b hb
      rcases List.mem_cons.mp hb with rfl | hb2
      · exact proxyMsg_ne p1 p2 '1' '2' (by decide) (by decide) (by decide)
      · rcases List.mem_singleton.mp hb2 with rfl
        exact proxyMsg_ne p1 p3 '1' '3' (by decide) (by decide) (by decide)
    · intro b hb
      rcases List.mem_singleton.mp hb with rfl
      exact proxyMsg_ne p2 p3 '2' '3' (by decide) (by decide) (by decide)

/-- Witness for C6: all strategies failing concretely. -/
theorem fetch_aggregate_amended_witness :
    fetchProductPage (.exn "boom") [.response 500 "b" "", .response 200 "" "", .exn "refused"]
      = .error ⟨[proxyMsg 1 (.response 500 "b" ""), proxyMsg 2 (.response 200 "" ""),
          proxyMsg 3 (.exn "refused")],
          fetchErrorMessage [proxyMsg 1 (.response 500 "b" ""), proxyMsg 2 (.response 200 "" ""),
            proxyMsg 3 (.exn "refused")]⟩ ∧
      List.Pairwise (fun a b => a ≠ b)
        [proxyMsg 1 (.response 500 "b" ""), proxyMsg 2 (.response 200 "" ""),
          proxyMsg 3 (.exn "refused")] :=
  fetch_aggregate_amended (.exn "boom") (by decide) (.response 500 "b" "")
    (.response 200 "" "") (.exn "refused") (by decide) (by decide) (by decide)

/-- C5 counterexample: the direct request resolves with status 200 and an
empty body while the first relay has valid HTML.  The code returns the
empty direct body (the direct path has no non-empty check), although the
first strategy to succeed with a non-empty body is the relay, whose body
differs. -/
theorem direct_empty_body_wins :
    fetchProductPage (.response 200 "" "")
        [.response 200 "<html>A</html>" "", .response 200 "B" "", .response 200 "C" ""]
      = .ok "" ∧ ("" : String) ≠ "<html>A</html>" :=
  ⟨rfl, by decide⟩

/-- C5 amended: the Fetcher tries the direct request and then the three
relays in declared order; the direct request wins on any ok response, even
with an empty body; when it fails, the first relay to succeed with a
non-empty body wins (an empty-body relay success is treated as a failure
and the next relay is tried); in particular, when the direct fetch throws,
relay A succeeds with an empty body and relay B has valid HTML, relay B's
body is returned. -/
theorem fetch_fallback_amended (status : Nat) (hs : isOkStatus status = true)
    (body em html : String) (hhtml : html ≠ "") (proxies : List (SimResponse String))
    (d p1 p3 : SimResponse String) (hd : directFailedB d = true)
    (h1 : proxyFailedB p1 = true) (b : String) (hb : b ≠ "") :
    fetchProductPage (.response status body em) proxies = .ok body ∧
      fetchProductPage d [p1, .response 200 b "", p3] = .ok b ∧
      fetchProductPage (.exn "CORS") [.response 200 "" "", .response 200 html "", p3]
        = .ok html := by
  refine ⟨by simp [fetchProductPage, hs], ?_, ?_⟩
  · rw [fetchProductPage_direct_failed d hd, proxyAttempts_failed_step 0 p1 h1]
    exact proxyAttempts_ok_step 1 200 (by decide) b hb "" [p3] _
  · have hname : fetchProductPage (.exn "CORS")
        [.response 200 "" "", .response 200 html "", p3]
        = proxyAttempts 0 [.response 200 "" "", .response 200 html "", p3] [] := rfl
    rw [hname, proxyAttempts_failed_step 0 (.response 200 "" "") (by decide)]
    exact proxyAttempts_ok_step 1 200 (by decide) html hhtml "" [p3] _

/-- Witness for C5: a concrete run of each conjunct. -/
theorem fetch_fallback_amended_witness :
    fetchProductPage (.response 200 "" "x") [.exn "p"] = .ok "" ∧
      fetchProductPage (.exn "blocked")
          [.response 502 "" "", .response 200 "<html>ok</html>" "", .exn "later"]
        = .ok "<html>ok</html>" ∧
      fetchProductPage (.exn "CORS")
          [.response 200 "" "", .response 200 "<html>page</html>" "", .exn "later"]
        = .ok "<html>page</html>" :=
  fetch_fallback_amended 200 (by decide) "" "x" "<html>page</html>" (by decide)
    [.exn "p"] (.exn "blocked") (.response 502 "" "") (.exn "later") (by decide) (by decide)
    "<html>ok</html>" (by decide)

/-! ## Claim C7: extraction never yields blank ingredients -/

theorem firstPatternCapture_shape (l : List (Option String)) :
    firstPatternCapture l = "" ∨ ∃ c, firstPatternCapture l = jsTrim c := by
  induction l with
  | nil => exact Or.inl rfl
  | cons o rest ih =>
    cases o with
    | none => simpa [firstPatternCapture] using ih
    | some c =>
      by_cases hc : c = ""
      · simpa [firstPatternCapture, hc] using ih
      · exact Or.inr ⟨c, by simp [firstPatternCapture, hc]⟩

theorem fallbackRows_shape (l : List (Bool × Option String)) :
    fallbackRows l = "" ∨ ∃ c, fallbackRows l = jsTrim c := by
  induction l with
  | nil => exact Or.inl rfl
  | cons row rest ih =>
    obtain ⟨hasLabel, p1⟩ := row
    cases hasLabel with
    | false => simpa [fallbackRows] using ih
    | true =>
      cases p1 with
      | none => simpa [fallbackRows] using ih
      | some p =>
        by_cases hp : p = ""
        · simpa [fallbackRows, hp] using ih
        · exact Or.inr ⟨p, by simp [fallbackRows, hp]⟩

/-- C7: for every document view and source URL, extraction either fails
(with the could-not-find-ingredients error) or returns a ProductData whose
ingredients string is non-empty and not whitespace-only: its own trim is
still non-empty.  The ingredients value always stems from a `trim()` call
of the source, and the final emptiness guard rejects the blank cases. -/
theorem extraction_nonempty (d : DomView) (url : String) (pd : ProductData)
    (h : parseKokubuProduct d url = Except.ok pd) :
    pd.ingredients ≠ "" ∧ jsTrim pd.ingredients ≠ "" := by
  simp only [parseKokubuProduct] at h
  by_cases hing :
      (if firstPatternCapture d.patternCaptures = "" then fallbackRows d.rowSplits
        else firstPatternCapture d.patternCaptures) = ""
  · rw [if_pos hing] at h
    cases h
  · rw [if_neg hing] at h
    cases h
    refine ⟨hing, ?_⟩
    have hshape : ∃ c,
        (if firstPatternCapture d.patternCaptures = "" then fallbackRows d.rowSplits
          else firstPatternCapture d.patternCaptures) = jsTrim c := by
      by_cases hp : firstPatternCapture d.patternCaptures = ""
      · rw [if_pos hp]
        rcases fallbackRows_shape d.rowSplits with h0 | hc
        · rw [if_pos hp] at hing
          exact absurd h0 hing
        · exact hc
      · rw [if_neg hp]
        rcases firstPatternCapture_shape d.patternCaptures with h0 | hc
        · exact absurd h0 hp
        · exact hc
    obtain ⟨c, hc⟩ := hshape
    simp only [ProductData.ingredients]
    rw [hc, jsTrim_idem]
    rw [hc] at hing
    exact hing

/-- Witness for C7 on a concrete document view whose second pattern
captures an ingredients run. -/
theorem extraction_nonempty_witness :
    (⟨"kokubu product", "米、塩", "https://example.jp/p"⟩ : ProductData).ingredients ≠ "" ∧
      jsTrim (⟨"kokubu product", "米、塩", "https://example.jp/p"⟩ : ProductData).ingredients
        ≠ "" :=
  extraction_nonempty
    ⟨[none, some " kokubu product "], [none, some "  米、塩  "], []⟩
    "https://example.jp/p"
    ⟨"kokubu product", "米、塩", "https://example.jp/p"⟩
    (by decide)

/-! ## Claim C8: the Ingredient Splitter on slash-free input -/

/-- C8 (modelled from the spec): applied to an ingredients string
containing neither the full-width nor the half-width slash, the splitter
yields an empty additives segment and a raw-materials segment equal to the
trimmed input — defined behavior, not an error. -/
theorem splitter_no_slash (s : String) (h1 : '／' ∉ s.data) (h2 : '/' ∉ s.data) :
    splitIngredientSegments s = (jsTrim s, "") := by
  simp only [splitIngredientSegments]
  rw [if_neg h1, if_neg h2]

/-- Witness for C8 on a slash-free Japanese ingredient list. -/
theorem splitter_no_slash_witness :
    splitIngredientSegments " ぶり、しょうゆ、粗糖 " = (jsTrim " ぶり、しょうゆ、粗糖 ", "") :=
  splitter_no_slash " ぶり、しょうゆ、粗糖 " (by decide) (by decide)

/-! ## Claims C1 and C4: parser failure discipline -/

/-- All suffixes of the text that begin at a line start: position 0 when
`b` is true, and every position right after a line terminator. -/
def lineStartRests : Bool → List Char → List (List Char)
  | _, [] => []
  | b, c :: cs => (if b then [c :: cs] else []) ++ lineStartRests (isLineTerm c) cs

/-- Whether some line of the text begins with the literal `VERDICT:` — the
condition tested by `/^VERDICT:/m`. -/
def hasVerdictLine (t : String) : Bool :=
  (lineStartRests true t.data).any (fun r => ("VERDICT:".data).isPrefixOf r)

theorem scanLS_eq_none_iff (marker : List Char) (l : List Char) (b : Bool) :
    scanLS marker b l = none ↔
      ∀ r ∈ lineStartRests b l, marker.isPrefixOf r = false := by
  induction l generalizing b with
  | nil => simp [scanLS, lineStartRests]
  | cons c cs ih =>
    by_cases hpre : marker.isPrefixOf (c :: cs) = true
    · cases b with
      | true => simp [scanLS, lineStartRests, hpre]
      | false => simp [scanLS, lineStartRests, hpre, ih]
    · have hpre2 : marker.isPrefixOf (c :: cs) = false := eq_false_of_ne_true hpre
      cases b with
      | true => simp [scanLS, lineStartRests, hpre2, ih]
      | false => simp [scanLS, lineStartRests, hpre2, ih]

theorem hasVerdictLine_iff_scan (t : String) :
    hasVerdictLine t = true ↔ scanLS ("VERDICT:".data) true t.data ≠ none := by
  rw [Ne, scanLS_eq_none_iff]
  simp [hasVerdictLine, List.any_eq_true]

theorem hasVerdictLine_ne_empty {t : String} (h : hasVerdictLine t = true) : t ≠ "" := by
  intro h0
  rw [h0] at h
  exact absurd h (by decide)

theorem splitAtSub_some_eq (pat : List Char) :
    ∀ l pre post, splitAtSub pat l = some (pre, post) → l = (pre ++ pat) ++ post := by
  intro l
  induction l with
  | nil =>
    intro pre post h
    by_cases hp : pat = []
    · subst hp
      simp only [splitAtSub, if_pos rfl] at h
      have h2 := Option.some.inj h
      injection h2 with h3 h4
      subst h3
      subst h4
      rfl
    · simp [splitAtSub, hp] at h
  | cons c cs ih =>
    intro pre post h
    by_cases hpre : pat.isPrefixOf (c :: cs) = true
    · simp only [splitAtSub, hpre, if_true] at h
      obtain ⟨t2, ht2⟩ := List.isPrefixOf_iff_prefix.mp hpre
      have h2 := Option.some.inj h
      injection h2 with h3 h4
      subst h3
      subst h4
      rw [List.nil_append, ← ht2, List.drop_left]
    · have hpre2 : pat.isPrefixOf (c :: cs) = false := eq_false_of_ne_true hpre
      simp only [splitAtSub, hpre2, Bool.false_eq_true, if_false] at h
      cases hrec : splitAtSub pat cs with
      | none => rw [hrec] at h; cases h
      | some pr =>
        obtain ⟨pre2, post2⟩ := pr
        rw [hrec] at h
        have h2 := Option.some.inj h
        injection h2 with h3 h4
        subst h4
        subst h3
        have hcs := ih _ _ hrec
        rw [List.cons_append, List.cons_append, ← hcs]

theorem splitAtSub_eq_none_iff (pat : List Char) (hp : pat ≠ []) (l : List Char) :
    splitAtSub pat l = none ↔ ¬ ∃ pre post, l = (pre ++ pat) ++ post := by
  constructor
  · intro h
    rintro ⟨pre, post, hsplit⟩
    have hsome : ∀ (pre2 l2 : List Char), l2 = (pre2 ++ pat) ++ post →
        splitAtSub pat l2 ≠ none := by
      intro pre2
      induction pre2 with
      | nil =>
        intro l2 hsp
        cases l2 with
        | nil =>
          rw [List.nil_append] at hsp
          have hlen := congrArg List.length hsp
          simp only [List.length_nil, List.length_append] at hlen
          exact absurd (List.eq_nil_of_length_eq_zero (by omega)) hp
        | cons c cs =>
          have hpre : pat.isPrefixOf (c :: cs) = true := by
            rw [List.nil_append] at hsp
            exact List.isPrefixOf_iff_prefix.mpr ⟨post, hsp.symm⟩
          simp [splitAtSub, hpre]
      | cons a pre2 ih =>
        intro l2 hsp
        cases l2 with
        | nil => simp at hsp
        | cons c cs =>
          rw [List.cons_append, List.cons_append] at hsp
          injection hsp with h1 h2
          by_cases hpre : pat.isPrefixOf (c :: cs) = true
          · simp [splitAtSub, hpre]
          · have hpre2 : pat.isPrefixOf (c :: cs) = false := eq_false_of_ne_true hpre
            have htail := ih cs h2
            simp only [splitAtSub, hpre2, Bool.false_eq_true, if_false]
            cases hrec : splitAtSub pat cs with
            | none => exact absurd hrec htail
            | some pr =>
              obtain ⟨x, y⟩ := pr
              simp
    exact hsome pre l hsplit h
  · intro h
    cases hrec : splitAtSub pat l with
    | none => rfl
    | some pr =>
      obtain ⟨pre, post⟩ := pr
      exact absurd ⟨pre, post, splitAtSub_some_eq pat l pre post hrec⟩ h

theorem findJpBlock_eq_none (l : List Char)
    (h : ¬ ∃ pre post, l = (pre ++ ("=== JAPANESE".data)) ++ post) :
    findJpBlock l = none := by
  induction l with
  | nil => rfl
  | cons c cs ih =>
    have hpre : ("=== JAPANESE".data).isPrefixOf (c :: cs) = false := by
      by_contra hx
      have hx2 : ("=== JAPANESE".data).isPrefixOf (c :: cs) = true := by
        simpa using hx
      obtain ⟨t2, ht2⟩ := List.isPrefixOf_iff_prefix.mp hx2
      exact h ⟨[], t2, by rw [List.nil_append]; exact ht2.symm⟩
    have hcs : ¬ ∃ pre post, cs = (pre ++ ("=== JAPANESE".data)) ++ post := by
      rintro ⟨pre, post, hsplit⟩
      exact h ⟨c :: pre, post, by rw [hsplit, List.cons_append, List.cons_append]⟩
    simp [findJpBlock, hpre, ih hcs]

/-- C1 counterexample: the empty reply text has no VERDICT line, and parse
fails on it — but with the missing-text failure, not the FormatError the
claim requires for every verdict-less reply. -/
theorem empty_reply_not_format_error :
    parseGeminiResponse ⟨some ""⟩ = .error .noText ∧
      hasVerdictLine "" = false ∧
      ParseFailure.noText ≠ ParseFailure.formatError "" :=
  ⟨rfl, rfl, by decide⟩

/-- C1 amended: an absent or empty reply text fails with the missing-text
failure; any other reply with no line beginning with `VERDICT:` fails with
the FormatError carrying the raw reply; and a reply with such a line never
fails — the parser returns a result that retains the raw reply, and a
missing English or Japanese marker yields the corresponding "not provided"
placeholder instead of a failure. -/
theorem parse_format_amended (s t : String)
    (hs0 : s ≠ "") (hs : hasVerdictLine s = false) (ht : hasVerdictLine t = true) :
    parseGeminiResponse ⟨some s⟩ = .error (.formatError s) ∧
      ∃ r, parseGeminiResponse ⟨some t⟩ = Except.ok r ∧ r.rawResponse = t ∧
        ((¬ ∃ pre post, t.data = (pre ++ ("=== ENGLISH ===".data)) ++ post) →
          r.englishReason = "No English reason provided") ∧
        ((¬ ∃ pre post, t.data = (pre ++ ("=== JAPANESE".data)) ++ post) →
          r.japaneseReason = "No Japanese reason provided") := by
  constructor
  · have hnone : scanLS ("VERDICT:".data) true s.data = none := by
      by_contra hx
      have h2 := (hasVerdictLine_iff_scan s).mpr hx
      rw [hs] at h2
      cases h2
    simp only [parseGeminiResponse]
    rw [if_neg hs0, hnone]
  · have htne : t ≠ "" := hasVerdictLine_ne_empty ht
    have hsome : scanLS ("VERDICT:".data) true t.data ≠ none :=
      (hasVerdictLine_iff_scan t).mp ht
    cases hscan : scanLS ("VERDICT:".data) true t.data with
    | none => exact absurd hscan hsome
    | some afterV =>
      have hparse : parseGeminiResponse ⟨some t⟩ = Except.ok
          ⟨verdictGroup afterV,
            (match splitAtSub ("=== ENGLISH ===".data) t.data with
              | none => "No English reason provided"
              | some (_, afterE) =>
                match splitAtSub ("=== JAPANESE".data) afterE with
                | some (pre, _) => (⟨trimChars pre⟩ : String)
                | none => (⟨trimChars afterE⟩ : String)),
            (match findJpBlock t.data with
              | none => "No Japanese reason provided"
              | some rest => (⟨trimChars rest⟩ : String)), t⟩ := by
        simp only [parseGeminiResponse]
        rw [if_neg htne, hscan]
      refine ⟨_, hparse, rfl, ?_, ?_⟩
      · intro hnoE
        have h1 : splitAtSub ("=== ENGLISH ===".data) t.data = none :=
          (splitAtSub_eq_none_iff _ (by decide) _).mpr hnoE
        simp [h1]
      · intro hnoJ
        have h2 : findJpBlock t.data = none := findJpBlock_eq_none _ hnoJ
        simp [h2]

/-- Witness for C1: a verdict-less reply and a verdict-only reply. -/
theorem parse_format_amended_witness :
    parseGeminiResponse ⟨some "no marker here"⟩
        = .error (.formatError "no marker here") ∧
      ∃ r, parseGeminiResponse ⟨some "VERDICT: Export OK"⟩ = Except.ok r ∧
        r.rawResponse = "VERDICT: Export OK" ∧
        ((¬ ∃ pre post, ("VERDICT: Export OK" : String).data
            = (pre ++ ("=== ENGLISH ===".data)) ++ post) →
          r.englishReason = "No English reason provided") ∧
        ((¬ ∃ pre post, ("VERDICT: Export OK" : String).data
            = (pre ++ ("=== JAPANESE".data)) ++ post) →
          r.japaneseReason = "No Japanese reason provided") :=
  parse_format_amended "no marker here" "VERDICT: Export OK"
    (by decide) (by decide) (by decide)

/-- Case-insensitive substring test, used to express that a reply carries
no `VERDICT:` marker at all. -/
def containsCI (pat : List Char) : List Char → Bool
  | [] => pat.isEmpty
  | c :: cs => ciPrefixOf pat (c :: cs) || containsCI pat cs

theorem scanOpenaiVerdict_eq_none (l : List Char)
    (h : containsCI ("VERDICT:".data) l = false) : scanOpenaiVerdict l = none := by
  induction l with
  | nil => rfl
  | cons c cs ih =>
    simp only [containsCI, Bool.or_eq_false_iff] at h
    obtain ⟨h1, h2⟩ := h
    simp [scanOpenaiVerdict, h1, ih h2]

/-- C4 counterexample: on a reply with no verdict marker at all, the
OpenAI parser does not fail — it returns a result whose verdict is the
fabricated string "Unknown", taken from no line of the reply. -/
theorem openai_verdict_defaulted :
    parseOpenAIResponse "The service returned prose with no marker."
        = ⟨"Unknown", "", "", "The service returned prose with no marker."⟩ ∧
      containsCI ("VERDICT:".data)
          ("The service returned prose with no marker." : String).data = false :=
  ⟨rfl, by decide⟩

/-- C4 amended: the Gemini parser never defaults the verdict — whenever it
returns a result, the reply did contain a `VERDICT:` line; the OpenAI
parser, however, substitutes the fabricated verdict "Unknown" and returns
a result rather than a failure whenever the marker is absent. -/
theorem verdict_never_defaulted_amended (t : String) (r : AnalysisResult)
    (h : parseGeminiResponse ⟨some t⟩ = Except.ok r) (s : String)
    (hs : containsCI ("VERDICT:".data) s.data = false) :
    hasVerdictLine t = true ∧ (parseOpenAIResponse s).verdict = "Unknown" := by
  constructor
  · rw [hasVerdictLine_iff_scan]
    intro hnone
    simp only [parseGeminiResponse] at h
    by_cases h0 : t = ""
    · rw [if_pos h0] at h
      cases h
    · rw [if_neg h0, hnone] at h
      cases h
  · have h2 := scanOpenaiVerdict_eq_none s.data hs
    simp [parseOpenAIResponse, h2]

/-- Witness for C4 at a concrete parsed reply and a concrete marker-free
reply. -/
theorem verdict_never_defaulted_amended_witness :
    hasVerdictLine "VERDICT: Export NOT OK" = true ∧
      (parseOpenAIResponse "plain prose").verdict = "Unknown" :=
  verdict_never_defaulted_amended "VERDICT: Export NOT OK"
    ⟨"Export NOT OK", "No English reason provided", "No Japanese reason provided",
      "VERDICT: Export NOT OK"⟩
    (by decide) "plain prose" (by decide)

end TeamB
